import Mathlib

/-!
Verification of the netsuite-shim client library: a shallow embedding of
the retry/backoff logic (`_retry.py`), the error classifier
(`exceptions.py`, `client.py`), the OAuth2 token-cache validity check
(`auth/oauth2.py`), the pagination iterators (`_pagination.py`), the core
request pipeline (`client.py`) and the TBA request-signing strategy
(`auth/tba.py`), together with theorems settling the specification's
claims about them.

Python floats are modelled as rationals (`ℚ`); the claims under scrutiny
involve only small integral values, far from any floating-point rounding.
-/

namespace NetsuiteShim

/-! ## Backoff calculator (`_retry.py`, `calculate_backoff`) -/

/-- Embedding of `calculate_backoff(attempt, retry_after, backoff_factor)`:
prefer the Retry-After value if present, else `backoff_factor * 2**attempt`. -/
def calculate_backoff (attempt : Nat) (retry_after : Option ℚ)
    (backoff_factor : ℚ) : ℚ :=
  match retry_after with
  | some h => h
  | none => backoff_factor * 2 ^ attempt

/-! ## Header lookup and `parse_retry_after` (`_retry.py`) -/

/-- ASCII lowercase of one character (header names are ASCII). -/
def lowerChar (c : Char) : Char :=
  if 65 ≤ c.toNat ∧ c.toNat ≤ 90 then Char.ofNat (c.toNat + 32) else c

/-- ASCII lowercase of a string. -/
def lowerStr (s : String) : String :=
  String.mk (s.data.map lowerChar)

/-- httpx header lookup: case-insensitive on the header name. -/
def headerGet (headers : List (String × String)) (key : String) :
    Option String :=
  (headers.find? (fun p => lowerStr p.1 == lowerStr key)).map (fun p => p.2)

/-- Digit list to natural number, most significant first. -/
def digitsToNat (cs : List Char) : Nat :=
  cs.foldl (fun acc c => acc * 10 + (c.toNat - 48)) 0

/-- Parse an unsigned decimal mantissa `digits [. digits]` into a rational,
returning `none` when no digit is present or a non-digit appears. -/
def parseMantissa (cs : List Char) : Option ℚ :=
  let intPart := cs.takeWhile Char.isDigit
  let rest := cs.dropWhile Char.isDigit
  match rest with
  | [] =>
      if intPart.isEmpty then none
      else some (digitsToNat intPart)
  | '.' :: fracPart =>
      if fracPart.all Char.isDigit ∧ ¬ (intPart.isEmpty ∧ fracPart.isEmpty)
      then some ((digitsToNat intPart : ℚ) +
            (digitsToNat fracPart : ℚ) / (10 ^ fracPart.length : ℚ))
      else none
  | _ => none

/-- ASCII whitespace, the characters `float` strips. -/
def isSpaceChar (c : Char) : Bool :=
  c == ' ' || c == '\t' || c == '\n' || c == '\r' ||
    c == (Char.ofNat 11) || c == (Char.ofNat 12)

/-- Strip leading and trailing whitespace from a character list. -/
def trimChars (cs : List Char) : List Char :=
  ((cs.dropWhile isSpaceChar).reverse.dropWhile isSpaceChar).reverse

/-- Embedding of Python `float(raw)` on the strings relevant here: optional
sign and a finite decimal. Exponents and the non-finite spellings
(`inf`, `nan`), which cannot arise as sensible Retry-After values, are not
modelled and parse to `none`. Surrounding whitespace is stripped as
`float` does. -/
def parseFloat (s : String) : Option ℚ :=
  match trimChars s.data with
  | '-' :: rest => (parseMantissa rest).map (fun q => -q)
  | '+' :: rest => parseMantissa rest
  | cs => parseMantissa cs

/-- Embedding of `parse_retry_after(response)`: read the `Retry-After`
header and parse it as a float; absent or unparseable gives `none`.
(Takes the header list; the rest of the response is irrelevant.) -/
def parse_retry_after (headers : List (String × String)) : Option ℚ :=
  match headerGet headers ("Retry-After") with
  | none => none
  | some raw => parseFloat raw

/-! ## JSON values and response bodies -/

/-- Minimal JSON value tree, the result type of `response.json()`. -/
inductive Json where
  | null
  | bool (b : Bool)
  | num (q : ℚ)
  | str (s : String)
  | arr (elems : List Json)
  | obj (fields : List (String × Json))

/-- A response body, classified by how `response.content` /
`response.json()` behave on it: empty content, content that parses as
JSON, or non-empty content that fails to parse as JSON. -/
inductive RespBody where
  | empty
  | json (v : Json)
  | raw (s : String)

/-- Mirrors Python `not response.content`. -/
def RespBody.isEmptyBody : RespBody → Bool
  | .empty => true
  | _ => false

/-- Mirrors `response.json()`: succeeds exactly on a JSON body. -/
def RespBody.asJson : RespBody → Option Json
  | .json v => some v
  | _ => none

/-- An HTTP response as seen by the client: status code, headers, body. -/
structure Response where
  status : Nat
  headers : List (String × String)
  body : RespBody

/-! ## Error taxonomy (`exceptions.py`) -/

/-- The exception classes of `exceptions.py`, as a kind tag. `generic` is
the base class `NetSuiteError` used as fallback. -/
inductive ErrorKind where
  | validation
  | authentication
  | authorization
  | notFound
  | concurrencyLimit
  | server
  | configuration
  | generic
deriving DecidableEq

/-- Embedding of `STATUS_EXCEPTION_MAP` from `exceptions.py`. -/
def STATUS_EXCEPTION_MAP (status : Nat) : Option ErrorKind :=
  if status = 400 then some .validation
  else if status = 401 then some .authentication
  else if status = 403 then some .authorization
  else if status = 404 then some .notFound
  else if status = 429 then some .concurrencyLimit
  else if status = 500 then some .server
  else if status = 502 then some .server
  else if status = 503 then some .server
  else none

/-- `STATUS_EXCEPTION_MAP.get(status, NetSuiteError)`. -/
def statusKind (status : Nat) : ErrorKind :=
  (STATUS_EXCEPTION_MAP status).getD .generic

/-- One entry of `NetSuiteErrorDetail` (`models.py`). -/
structure NetSuiteErrorDetail where
  detail : String
  error_code : String
  error_path : Option String
deriving DecidableEq

/-- The parsed structured error payload `NetSuiteErrorResponse`
(`models.py`). Field defaults mirror the pydantic model. -/
structure NetSuiteErrorResponse where
  type : String
  title : String
  status : Nat
  error_code : String
  error_details : List NetSuiteErrorDetail
deriving DecidableEq

/-- The typed error (`NetSuiteError` and subclasses) flattened into one
record: the class tag plus the constructor arguments. `retry_after`
exists only on `ConcurrencyLimitError`; it is `none` for every other
kind. -/
structure NSError where
  kind : ErrorKind
  message : String
  status : Option Nat
  error_code : Option String
  error_details : List NetSuiteErrorDetail
  retry_after : Option ℚ
deriving DecidableEq

/-! ## Pydantic validation of the structured error payload (`models.py`)

`NetSuiteErrorResponse.model_validate(body)`: every field has a default,
aliases are honoured alongside field names (`populate_by_name = True`),
a present field of the wrong JSON type fails validation, and a non-object
body fails validation. (Pydantic's lax-mode numeric coercions and
negative statuses are not modelled; no claim depends on them.) -/

/-- Lookup a key in a JSON object's field list (first occurrence). -/
def jsonLookup (fields : List (String × Json)) (key : String) :
    Option Json :=
  (fields.find? (fun p => p.1 == key)).map (fun p => p.2)

/-- Lookup under the pydantic alias first, then the field name. -/
def lookupAliased (fields : List (String × Json)) (aliasKey fieldKey : String) :
    Option Json :=
  (jsonLookup fields aliasKey).orElse (fun _ => jsonLookup fields fieldKey)

/-- Validate an optional JSON value as a `str` field with default. -/
def getStr (v : Option Json) (dflt : String) : Option String :=
  match v with
  | none => some dflt
  | some (Json.str s) => some s
  | some _ => none

/-- Validate an optional JSON value as an `int` field with default. -/
def getNat (v : Option Json) (dflt : Nat) : Option Nat :=
  match v with
  | none => some dflt
  | some (Json.num q) =>
      if q.den = 1 ∧ 0 ≤ q.num then some q.num.toNat else none
  | some _ => none

/-- Validate an optional JSON value as a `str | None` field defaulting
to `None`. -/
def getOptStr (v : Option Json) : Option (Option String) :=
  match v with
  | none => some none
  | some Json.null => some none
  | some (Json.str s) => some s
  | some _ => none

/-- Validate one entry of `o:errorDetails` as a `NetSuiteErrorDetail`. -/
def parseErrorDetail : Json → Option NetSuiteErrorDetail
  | Json.obj fields => do
      let d ← getStr (jsonLookup fields ("detail")) ("")
      let c ← getStr (lookupAliased fields ("o:errorCode") ("error_code")) ("")
      let p ← getOptStr (lookupAliased fields ("o:errorPath") ("error_path"))
      some ⟨d, c, p⟩
  | _ => none

/-- `NetSuiteErrorResponse.model_validate` on a JSON value. -/
def parseErrorResponse : Json → Option NetSuiteErrorResponse
  | Json.obj fields => do
      let t ← getStr (jsonLookup fields ("type")) ("")
      let title ← getStr (jsonLookup fields ("title")) ("")
      let st ← getNat (jsonLookup fields ("status")) 0
      let code ← getStr (lookupAliased fields ("o:errorCode") ("error_code")) ("")
      let details ←
        match lookupAliased fields ("o:errorDetails") ("error_details") with
        | none => some []
        | some (Json.arr xs) => xs.mapM parseErrorDetail
        | some _ => none
      some ⟨t, title, st, code, details⟩
  | _ => none

/-- The `try: body = response.json(); model_validate(body)` prelude of
`_build_exception`: `none` when either step raises. -/
def tryParseError (r : Response) : Option NetSuiteErrorResponse :=
  r.body.asJson.bind parseErrorResponse

/-! ## Error classifier (`client.py`, `_build_exception`) -/

/-- Embedding of `NetSuiteClient._build_exception`. Python truthiness is
made explicit: `error_resp.status or response.status_code` falls back on
status `0`, and `error_resp.title or f"HTTP {...}"` falls back on the
empty title. -/
def build_exception (r : Response) : NSError :=
  match tryParseError r with
  | none =>
      { kind := .generic
        message := "HTTP " ++ toString r.status
        status := some r.status
        error_code := none
        error_details := []
        retry_after := none }
  | some er =>
      let kind := statusKind r.status
      { kind := kind
        message := if er.title = "" then "HTTP " ++ toString r.status else er.title
        status := some (if er.status = 0 then r.status else er.status)
        error_code := some er.error_code
        error_details := er.error_details
        retry_after :=
          if kind = .concurrencyLimit then parse_retry_after r.headers
          else none }

/-! ## OAuth2 token-cache validity (`auth/oauth2.py`, `_is_token_valid`) -/

/-- Embedding of `OAuth2Auth._is_token_valid`:
`self._access_token is not None and time.time() < (self._expires_at - 60)`.
Times are rationals (seconds). -/
def _is_token_valid (access_token : Option String) (expires_at now : ℚ) :
    Bool :=
  access_token.isSome && decide (now < expires_at - 60)

/-! ## Pagination (`_pagination.py`)

A `PaginatedResponse` carries further fields (`count`, `total_results`,
`links`, `offset`) that the iterators never read; the embedding keeps the
two fields the iterator logic inspects, with the item type a parameter
(items are opaque dicts in the source). -/

/-- The slice of `PaginatedResponse` the iterators consume. -/
structure Page (α : Type) where
  items : List α
  has_more : Bool
deriving DecidableEq

/-- Trace of a full iterator run: the offsets passed to `fetch_page`, in
order, and the pages yielded to the consumer, in order. -/
structure PageRun (α : Type) where
  fetched : List Nat
  yielded : List (Page α)
deriving DecidableEq

/-- Embedding of the `SyncPageIterator` state machine (`__next__`) run to
exhaustion: starting from `offset`, fetch a page; if it has more, yield it
and continue at `offset + limit`; otherwise become exhausted and yield the
page only when its item list is non-empty. `fuel` bounds the number of
iterations (the Python iterator may be infinite when every page reports
more-available). -/
def syncPagesRun {α : Type} (fetch : Nat → Nat → Page α) (limit : Nat) :
    Nat → Nat → PageRun α
  | _offset, 0 => ⟨[], []⟩
  | offset, fuel + 1 =>
      let page := fetch limit offset
      if page.has_more then
        let rest := syncPagesRun fetch limit (offset + limit) fuel
        ⟨offset :: rest.fetched, page :: rest.yielded⟩
      else if page.items.isEmpty then ⟨[offset], []⟩
      else ⟨[offset], [page]⟩

/-- Embedding of the `AsyncPageIterator` state machine (`__anext__`); its
control flow is identical to the sync variant apart from awaiting. -/
def asyncPagesRun {α : Type} (fetch : Nat → Nat → Page α) (limit : Nat) :
    Nat → Nat → PageRun α
  | _offset, 0 => ⟨[], []⟩
  | offset, fuel + 1 =>
      let page := fetch limit offset
      if page.has_more then
        let rest := asyncPagesRun fetch limit (offset + limit) fuel
        ⟨offset :: rest.fetched, page :: rest.yielded⟩
      else if page.items.isEmpty then ⟨[offset], []⟩
      else ⟨[offset], [page]⟩

/-- Embedding of `iter_items_sync`: flatten the yielded pages' items. -/
def iter_items_sync {α : Type} (fetch : Nat → Nat → Page α) (limit : Nat)
    (fuel : Nat) : List α :=
  ((syncPagesRun fetch limit 0 fuel).yielded.map (fun p => p.items)).flatten

/-! ## Request pipeline (`client.py`, `_request_sync` / `_request_async`) -/

/-- What one call of `_request_sync` can do: return parsed JSON, raise a
`NetSuiteError`, or propagate the JSON decode error `response.json()`
raises on a malformed success body. -/
inductive ReqOutcome where
  | ok (v : Json)
  | raised (e : NSError)
  | jsonDecodeError

/-- `NetSuiteError("Max retries exceeded")`, the defensive fallback. -/
def maxRetriesExceeded : NSError :=
  ⟨.generic, "Max retries exceeded", none, none, [], none⟩

/-- Observable trace of one pipeline run: the outcome, the number of
physical HTTP calls issued, and the sleeps performed (seconds each). -/
structure RunResult where
  result : ReqOutcome
  calls : Nat
  waits : List ℚ

/-- The `for attempt in range(max_retries + 1)` loop body of
`_request_sync`, with the response of each physical attempt supplied by
`responses`. `fuel` counts the loop iterations still permitted; the
pipeline enters with `fuel = max_retries + 1 - attempt`, and the
fuel-exhausted case is the loop's fall-through
`raise last_exc or NetSuiteError("Max retries exceeded")`. -/
def requestLoop (max_retries : Nat) (backoff_factor : ℚ)
    (responses : Nat → Response) :
    Nat → Nat → Option NSError → RunResult
  | 0, _attempt, last_exc =>
      ⟨.raised (last_exc.getD maxRetriesExceeded), 0, []⟩
  | fuel + 1, attempt, _last_exc =>
      let r := responses attempt
      if r.status < 400 then
        if r.status = 204 ∨ r.body.isEmptyBody then ⟨.ok (Json.obj []), 1, []⟩
        else
          match r.body.asJson with
          | some v => ⟨.ok v, 1, []⟩
          | none => ⟨.jsonDecodeError, 1, []⟩
      else
        let exc := build_exception r
        if r.status = 429 ∧ attempt < max_retries then
          let retry_after := parse_retry_after r.headers
          let wait := calculate_backoff attempt retry_after backoff_factor
          let rest := requestLoop max_retries backoff_factor responses
            fuel (attempt + 1) (some exc)
          ⟨rest.result, rest.calls + 1, wait :: rest.waits⟩
        else if 500 ≤ r.status ∧ attempt < max_retries then
          let wait := calculate_backoff attempt none backoff_factor
          let rest := requestLoop max_retries backoff_factor responses
            fuel (attempt + 1) (some exc)
          ⟨rest.result, rest.calls + 1, wait :: rest.waits⟩
        else ⟨.raised exc, 1, []⟩

/-- Embedding of `NetSuiteClient._request_sync` for a fixed request, the
per-attempt responses supplied by `responses`. -/
def _request_sync (max_retries : Nat) (backoff_factor : ℚ)
    (responses : Nat → Response) : RunResult :=
  requestLoop max_retries backoff_factor responses (max_retries + 1) 0 none

/-- Embedding of `NetSuiteClient._request_async`; its control flow is
line-for-line that of `_request_sync` with awaited sleep and network
calls. -/
def _request_async (max_retries : Nat) (backoff_factor : ℚ)
    (responses : Nat → Response) : RunResult :=
  requestLoop max_retries backoff_factor responses (max_retries + 1) 0 none

/-! ## TBA signing (`auth/tba.py`)

The request is modelled by its method, URL (scheme, host, path and the
ordered multi-item query list `request.url.params.multi_items()`), and
body. The body is carried so that its irrelevance to the signature is a
provable statement rather than a modelling artefact. -/

/-- `TBAConfig` from `models.py`. -/
structure TBAConfig where
  consumer_key : String
  consumer_secret : String
  token_key : String
  token_secret : String

/-- The parts of an `httpx.URL` the signing code reads. -/
structure Url where
  scheme : String
  host : String
  path : String
  query : List (String × String)
deriving DecidableEq

/-- The parts of an `httpx.Request` the signing code reads. -/
structure Request where
  method : String
  url : Url
  body : String

/-- UTF-8 encoding of one character (RFC 3629), as byte values. -/
def utf8Bytes (c : Char) : List Nat :=
  let n := c.toNat
  if n < 0x80 then [n]
  else if n < 0x800 then [0xC0 + n / 64, 0x80 + n % 64]
  else if n < 0x10000 then
    [0xE0 + n / 4096, 0x80 + (n / 64) % 64, 0x80 + n % 64]
  else
    [0xF0 + n / 262144, 0x80 + (n / 4096) % 64, 0x80 + (n / 64) % 64,
     0x80 + n % 64]

/-- The UTF-8 bytes of a string (`s.encode("utf-8")`). -/
def strBytes (s : String) : List Nat :=
  (s.data.map utf8Bytes).flatten

/-- The RFC 3986 unreserved set, `urllib.parse.quote`'s always-safe
characters: ALPHA / DIGIT / `-` / `.` / `_` / `~`. -/
def isUnreservedByte (b : Nat) : Bool :=
  (65 ≤ b && b ≤ 90) || (97 ≤ b && b ≤ 122) || (48 ≤ b && b ≤ 57) ||
    b == 45 || b == 46 || b == 95 || b == 126

/-- Uppercase hex digit, as `quote` emits. -/
def hexDigitChar (n : Nat) : Char :=
  if n < 10 then Char.ofNat (48 + n) else Char.ofNat (55 + n)

/-- Percent-encode one byte: unreserved bytes stand for themselves,
everything else becomes `%XX`. -/
def encodeByte (b : Nat) : List Char :=
  if isUnreservedByte b then [Char.ofNat b]
  else ['%', hexDigitChar (b / 16), hexDigitChar (b % 16)]

/-- Embedding of `_percent_encode(s)` = `quote(s, safe="")`. -/
def percentEncode (s : String) : String :=
  String.mk ((strBytes s).map encodeByte).flatten

/-- Python `dict.__setitem__` on an insertion-ordered association list:
replace in place when the key exists, else append. -/
def dictSet (d : List (String × String)) (k v : String) :
    List (String × String) :=
  if d.any (fun p => p.1 == k) then
    d.map (fun p => if p.1 == k then (k, v) else p)
  else d ++ [(k, v)]

/-- The `all_params` merge of `_compute_signature`: start from the OAuth
params dict and assign every query multi-item in order. -/
def mergeParams (oauth : List (String × String))
    (query : List (String × String)) : List (String × String) :=
  query.foldl (fun d p => dictSet d p.1 p.2) oauth

/-- Code-point lexicographic comparison of character lists, Python's
string ordering. -/
def charListLt : List Char → List Char → Bool
  | [], [] => false
  | [], _ :: _ => true
  | _ :: _, [] => false
  | a :: as, b :: bs =>
      if a.toNat < b.toNat then true
      else if b.toNat < a.toNat then false
      else charListLt as bs

/-- Python `a < b` on strings. -/
def strLtB (a b : String) : Bool :=
  charListLt a.data b.data

/-- Insert a pair into a key-sorted list (Python tuple order; keys are
unique here, so value order never matters). -/
def insertPairSorted (p : String × String) :
    List (String × String) → List (String × String)
  | [] => [p]
  | q :: rest =>
      if strLtB q.1 p.1 then q :: insertPairSorted p rest
      else p :: q :: rest

/-- `sorted(all_params.items())`. -/
def sortPairs (ps : List (String × String)) : List (String × String) :=
  ps.foldr insertPairSorted []

/-- Python `sep.join(parts)`. -/
def joinParts (sep : String) : List String → String
  | [] => ""
  | [p] => p
  | p :: rest => p ++ sep ++ joinParts sep rest

/-- `urlencode(sorted_params, quote_via=quote)`: percent-encoded
`key=value` pairs joined with `&`. -/
def normalizedParams (ps : List (String × String)) : String :=
  joinParts ("&") (ps.map (fun p =>
    percentEncode p.1 ++ "=" ++ percentEncode p.2))

/-- `str(request.url.copy_with(query=None, fragment=None))`. -/
def baseUrlOf (u : Url) : String :=
  u.scheme ++ "://" ++ u.host ++ u.path

/-- ASCII uppercase of one character (HTTP method names are ASCII). -/
def upperChar (c : Char) : Char :=
  if 97 ≤ c.toNat ∧ c.toNat ≤ 122 then Char.ofNat (c.toNat - 32) else c

/-- ASCII uppercase of a string, `request.method.upper()`. -/
def upperStr (s : String) : String :=
  String.mk (s.data.map upperChar)

/-- The fixed OAuth parameter dict built in `auth_flow`. -/
def oauthParams (cfg : TBAConfig) (nonce timestamp : String) :
    List (String × String) :=
  [("oauth_consumer_key", cfg.consumer_key),
   ("oauth_nonce", nonce),
   ("oauth_signature_method", ("HMAC-SHA256")),
   ("oauth_timestamp", timestamp),
   ("oauth_token", cfg.token_key),
   ("oauth_version", ("1.0"))]

/-- The signature base string of `_compute_signature`: percent-encoded
uppercase method, base URL, and normalized sorted parameter string,
joined with `&`. -/
def signature_base_string (cfg : TBAConfig) (nonce ts : String)
    (r : Request) : String :=
  percentEncode (upperStr r.method) ++ "&" ++
    percentEncode (baseUrlOf r.url) ++ "&" ++
    percentEncode (normalizedParams
      (sortPairs (mergeParams (oauthParams cfg nonce ts) r.url.query)))

/-- The HMAC signing key: percent-encoded consumer secret, `&`,
percent-encoded token secret. -/
def signingKeyOf (cfg : TBAConfig) : String :=
  percentEncode cfg.consumer_secret ++ "&" ++ percentEncode cfg.token_secret

/-! ### SHA-256, HMAC and base64 (`hashlib.sha256`, `hmac`, `base64`)

Executable byte-level implementations of the primitives the source calls.
The claims' proofs treat them as opaque functions of their inputs; no
proof depends on internals of the compression function. 32-bit words are
naturals reduced mod `2 ^ 32`. -/

/-- 32-bit right rotation. -/
def rotr32 (x n : Nat) : Nat :=
  ((x >>> n) ||| (x <<< (32 - n))) % 2 ^ 32

/-- The SHA-256 round constants (FIPS 180-4), in decimal. -/
def sha256K : List Nat :=
  [1116352408, 1899447441, 3049323471, 3921009573,
   961987163, 1508970993, 2453635748, 2870763221,
   3624381080, 310598401, 607225278, 1426881987,
   1925078388, 2162078206, 2614888103, 3248222580,
   3835390401, 4022224774, 264347078, 604807628,
   770255983, 1249150122, 1555081692, 1996064986,
   2554220882, 2821834349, 2952996808, 3210313671,
   3336571891, 3584528711, 113926993, 338241895,
   666307205, 773529912, 1294757372, 1396182291,
   1695183700, 1986661051, 2177026350, 2456956037,
   2730485921, 2820302411, 3259730800, 3345764771,
   3516065817, 3600352804, 4094571909, 275423344,
   430227734, 506948616, 659060556, 883997877,
   958139571, 1322822218, 1537002063, 1747873779,
   1955562222, 2024104815, 2227730452, 2361852424,
   2428436474, 2756734187, 3204031479, 3329325298]

/-- The SHA-256 initial hash values (FIPS 180-4), in decimal. -/
def sha256Init : List Nat :=
  [1779033703, 3144134277, 1013904242, 2773480762,
   1359893119, 2600822924, 528734635, 1541459225]

/-- Big-endian byte decomposition, `n` bytes. -/
def toBytesBE (n : Nat) (v : Nat) : List Nat :=
  (List.range n).map (fun i => v / 2 ^ (8 * (n - 1 - i)) % 256)

/-- SHA-256 message padding: `0x80`, zeros, 64-bit big-endian bit
length, to a multiple of 64 bytes. -/
def sha256Pad (msg : List Nat) : List Nat :=
  let L := msg.length
  let zeros := (55 + 64 - L % 64) % 64
  msg ++ [0x80] ++ List.replicate zeros 0 ++ toBytesBE 8 (8 * L)

/-- Group bytes into big-endian 32-bit words. -/
def bytesToWords : List Nat → List Nat
  | b0 :: b1 :: b2 :: b3 :: rest =>
      (((b0 * 256 + b1) * 256 + b2) * 256 + b3) :: bytesToWords rest
  | _ => []

/-- Split into 64-byte blocks. -/
def chunks64 (bs : List Nat) : List (List Nat) :=
  if h : bs.isEmpty then [] else bs.take 64 :: chunks64 (bs.drop 64)
termination_by bs.length
decreasing_by
  simp only [List.length_drop]
  cases bs with
  | nil => simp at h
  | cons x xs => simp only [List.length_cons]; omega

/-- The small sigma functions of the SHA-256 message schedule. -/
def ssig0 (x : Nat) : Nat := rotr32 x 7 ^^^ rotr32 x 18 ^^^ (x >>> 3)

/-- Second small sigma. -/
def ssig1 (x : Nat) : Nat := rotr32 x 17 ^^^ rotr32 x 19 ^^^ (x >>> 10)

/-- The big sigma functions of the SHA-256 round. -/
def bsig0 (x : Nat) : Nat := rotr32 x 2 ^^^ rotr32 x 13 ^^^ rotr32 x 22

/-- Second big sigma. -/
def bsig1 (x : Nat) : Nat := rotr32 x 6 ^^^ rotr32 x 11 ^^^ rotr32 x 25

/-- Extend 16 schedule words to 64. -/
def extendW (w : List Nat) : List Nat :=
  (List.range 48).foldl (fun acc i =>
    acc ++ [(ssig1 (acc.getD (i + 14) 0) + acc.getD (i + 9) 0 +
      ssig0 (acc.getD (i + 1) 0) + acc.getD i 0) % 2 ^ 32]) w

/-- One SHA-256 compression step over a 64-byte block. -/
def sha256Compress (h : List Nat) (block : List Nat) : List Nat :=
  let w := extendW (bytesToWords block)
  let s := (List.range 64).foldl (fun st i =>
    match st with
    | [a, b, c, d, e, f, g, hh] =>
        let ch := (e &&& f) ^^^ ((e ^^^ 0xffffffff) &&& g)
        let maj := (a &&& b) ^^^ (a &&& c) ^^^ (b &&& c)
        let t1 := (hh + bsig1 e + ch + sha256K.getD i 0 + w.getD i 0) % 2 ^ 32
        let t2 := (bsig0 a + maj) % 2 ^ 32
        [(t1 + t2) % 2 ^ 32, a, b, c, (d + t1) % 2 ^ 32, e, f, g]
    | _ => st) h
  match s, h with
  | [a, b, c, d, e, f, g, hh], [h0, h1, h2, h3, h4, h5, h6, h7] =>
      [(a + h0) % 2 ^ 32, (b + h1) % 2 ^ 32, (c + h2) % 2 ^ 32,
       (d + h3) % 2 ^ 32, (e + h4) % 2 ^ 32, (f + h5) % 2 ^ 32,
       (g + h6) % 2 ^ 32, (hh + h7) % 2 ^ 32]
  | _, _ => h

/-- SHA-256 digest of a byte list, 32 bytes out. -/
def sha256 (msg : List Nat) : List Nat :=
  (((chunks64 (sha256Pad msg)).foldl sha256Compress sha256Init).map
    (toBytesBE 4)).flatten

/-- HMAC-SHA256 (RFC 2104, block size 64). -/
def hmacSha256 (key msg : List Nat) : List Nat :=
  let k0 := if 64 < key.length then sha256 key else key
  let kpad := k0 ++ List.replicate (64 - k0.length) 0
  sha256 ((kpad.map (fun b => b ^^^ 0x5c)) ++
    sha256 ((kpad.map (fun b => b ^^^ 0x36)) ++ msg))

/-- The base64 alphabet. -/
def base64Chars : List Char :=
  ("ABCDEFGHIJKLMNOPQRSTUVWXYZabcdefghijklmnopqrstuvwxyz0123456789+/").data

/-- One base64 sextet as a character. -/
def b64c (n : Nat) : Char := base64Chars.getD n ('A')

/-- Base64 encoding of a byte list with `=` padding. -/
def base64Go : List Nat → List Char
  | b0 :: b1 :: b2 :: rest =>
      b64c (b0 / 4) :: b64c (b0 % 4 * 16 + b1 / 16) ::
        b64c (b1 % 16 * 4 + b2 / 64) :: b64c (b2 % 64) :: base64Go rest
  | [b0, b1] =>
      [b64c (b0 / 4), b64c (b0 % 4 * 16 + b1 / 16), b64c (b1 % 16 * 4), '=']
  | [b0] => [b64c (b0 / 4), b64c (b0 % 4 * 16), '=', '=']
  | [] => []

/-- `base64.b64encode(...).decode("utf-8")`. -/
def base64Encode (bs : List Nat) : String :=
  String.mk (base64Go bs)

/-- Embedding of `TBAAuth._compute_signature`:
`base64(HMAC-SHA256(signing_key, base_string))`. -/
def _compute_signature (cfg : TBAConfig) (nonce ts : String)
    (r : Request) : String :=
  base64Encode (hmacSha256 (strBytes (signingKeyOf cfg))
    (strBytes (signature_base_string cfg nonce ts r)))

/-- Embedding of `TBAAuth._build_header`: the `OAuth` scheme with realm
first, then the percent-encoded parameters in sorted key order. -/
def _build_header (realm : String) (oauthPs : List (String × String)) :
    String :=
  "OAuth " ++ joinParts (", ")
    ((("realm=\"" ++ percentEncode realm ++ "\"")) ::
      (sortPairs oauthPs).map (fun p =>
        percentEncode p.1 ++ "=\"" ++ percentEncode p.2 ++ "\""))

/-- Embedding of `TBAAuth.auth_flow` with the nonce and timestamp fixed:
the Authorization header attached to the outgoing request. -/
def auth_flow_header (cfg : TBAConfig) (realm nonce ts : String)
    (r : Request) : String :=
  _build_header realm (dictSet (oauthParams cfg nonce ts)
    ("oauth_signature") (_compute_signature cfg nonce ts r))

/-! ### Decoding helpers for the injectivity arguments -/

/-- Value of a hex digit character (uppercase as emitted). -/
def hexVal (c : Char) : Nat :=
  if c.toNat ≤ 57 then c.toNat - 48 else c.toNat - 55

/-- Inverse of `encodeByte` on one chunk of percent-encoded output. -/
def decodeOneByte : List Char → Option (Nat × List Char)
  | [] => none
  | c :: rest =>
      if c = '%' then
        match rest with
        | h :: l :: rest2 => some (16 * hexVal h + hexVal l, rest2)
        | _ => none
      else if isUnreservedByte c.toNat then some (c.toNat, rest)
      else none

/-- All characters of a string are ASCII. -/
def isAsciiStr (s : String) : Bool :=
  s.data.all (fun c => c.toNat < 128)

/-- All keys and values of a parameter list are ASCII. -/
def isAsciiPairs (ps : List (String × String)) : Bool :=
  ps.all (fun p => isAsciiStr p.1 && isAsciiStr p.2)

/-- Character-level view of `joinParts` with a one-character separator,
used to reason about unique decodability of the parameter string. -/
def joinChar (sep : Char) : List (List Char) → List Char
  | [] => []
  | [p] => p
  | p :: rest => p ++ sep :: joinChar sep rest

/-! ## Theorems -/

/-- C7: with no server hint, `calculate_backoff` returns exactly
`f * 2 ^ a` (uncapped), and with a hint `h` present it returns `h`
unchanged, for every attempt index `a ≥ 0` and factor `f > 0`. -/
theorem C7_calculate_backoff (a : Nat) (h f : ℚ) (hf : 0 < f) :
    calculate_backoff a none f = f * 2 ^ a ∧
    calculate_backoff a (some h) f = h :=
  ⟨rfl, rfl⟩

/-- Witness for C7 at `a = 3`, `h = 7`, `f = 1`. -/
theorem C7_calculate_backoff_witness :
    calculate_backoff 3 none 1 = 1 * 2 ^ 3 ∧
    calculate_backoff 3 (some 7) 1 = 7 :=
  C7_calculate_backoff 3 7 1 (by norm_num)

/-- C3: the cached token is reported valid exactly when a token is
present and the current time is strictly below expiry minus the
60-second skew buffer; in particular valid at `E - 61` and invalid at
`E - 59`. -/
theorem C3_token_cache_validity (tok : String) (E now : ℚ) :
    (_is_token_valid (some tok) E now = true ↔ now < E - 60) ∧
    _is_token_valid none E now = false ∧
    _is_token_valid (some tok) E (E - 61) = true ∧
    _is_token_valid (some tok) E (E - 59) = false := by
  refine ⟨?_, ?_, ?_, ?_⟩
  · simp [_is_token_valid]
  · simp [_is_token_valid]
  · simp only [_is_token_valid, Option.isSome_some, Bool.true_and,
      decide_eq_true_eq]
    linarith
  · simp only [_is_token_valid, Option.isSome_some, Bool.true_and,
      decide_eq_false_iff_not]
    linarith

/-- Witness for C3: a stored token checked 61 seconds before expiry. -/
theorem C3_token_cache_validity_witness :
    _is_token_valid (some ("tok")) 100 (100 - 61) = true :=
  (C3_token_cache_validity ("tok") 100 0).2.2.1

/-- C4: when the body of a `status ≥ 400` response validates as a
structured error payload, the constructed error's kind is exactly the
status map's entry (400 Validation, 401 Authentication, 403
Authorization, 404 NotFound, 429 ConcurrencyLimit, 500/502/503 Server,
anything else generic) and its message is the payload title when
non-empty, else `"HTTP <status>"`. -/
theorem C4_status_mapping (r : Response) (er : NetSuiteErrorResponse)
    (hs : 400 ≤ r.status) (hp : tryParseError r = some er) :
    (build_exception r).kind = statusKind r.status ∧
    (build_exception r).message =
      (if er.title = "" then "HTTP " ++ toString r.status else er.title) ∧
    statusKind 400 = .validation ∧
    statusKind 401 = .authentication ∧
    statusKind 403 = .authorization ∧
    statusKind 404 = .notFound ∧
    statusKind 429 = .concurrencyLimit ∧
    statusKind 500 = .server ∧
    statusKind 502 = .server ∧
    statusKind 503 = .server ∧
    (∀ s : Nat, s ≠ 400 → s ≠ 401 → s ≠ 403 → s ≠ 404 → s ≠ 429 →
      s ≠ 500 → s ≠ 502 → s ≠ 503 → statusKind s = .generic) := by
  refine ⟨?_, ?_, rfl, rfl, rfl, rfl, rfl, rfl, rfl, rfl, ?_⟩
  · simp [build_exception, hp]
  · simp [build_exception, hp]
  · intro s h1 h2 h3 h4 h5 h6 h7 h8
    simp [statusKind, STATUS_EXCEPTION_MAP, h1, h2, h3, h4, h5, h6, h7, h8]

/-- Witness for C4: a 400 response whose body carries a title. -/
theorem C4_status_mapping_witness :
    (build_exception
      ⟨400, [], .json (.obj [(("title"), Json.str ("Invalid field"))])⟩).kind
      = statusKind 400 :=
  (C4_status_mapping
    ⟨400, [], .json (.obj [(("title"), Json.str ("Invalid field"))])⟩
    ⟨(""), ("Invalid field"), 0, (""), []⟩ (by norm_num) (by rfl)).1

/-- C5: when the body of a `status ≥ 400` response fails to parse as the
structured payload, the classifier returns the generic error with the raw
status, message `"HTTP <status>"`, no provider code and no details; in
particular a 502 with a non-JSON body is generic, not Server-kind. -/
theorem C5_unparseable_body (r : Response) (hs : 400 ≤ r.status)
    (hp : tryParseError r = none) :
    build_exception r = ⟨.generic, "HTTP " ++ toString r.status,
      some r.status, none, [], none⟩ ∧
    build_exception ⟨502, [], .raw ("<html>")⟩ =
      ⟨.generic, ("HTTP 502"), some 502, none, [], none⟩ ∧
    (build_exception ⟨502, [], .raw ("<html>")⟩).kind ≠ .server := by
  refine ⟨?_, rfl, by decide⟩
  simp [build_exception, hp]

/-- Witness for C5: a 502 response with an unparseable body. -/
theorem C5_unparseable_body_witness :
    build_exception ⟨502, [], .raw ("x")⟩ =
      ⟨.generic, "HTTP " ++ toString (502 : Nat), some 502, none, [],
        none⟩ :=
  (C5_unparseable_body ⟨502, [], .raw ("x")⟩ (by norm_num) (by rfl)).1

/-- C6: the Retry-After header parses to its numeric value when present,
to `none` when absent or unparseable; the hint is attached to the
constructed error exactly for the ConcurrencyLimit kind; and a 429 with
`Retry-After: 5` carries `retry_after = 5`. -/
theorem C6_retry_after_hint (r : Response) :
    (headerGet r.headers ("Retry-After") = none →
      parse_retry_after r.headers = none) ∧
    (∀ raw q, headerGet r.headers ("Retry-After") = some raw →
      parseFloat raw = some q → parse_retry_after r.headers = some q) ∧
    (∀ raw, headerGet r.headers ("Retry-After") = some raw →
      parseFloat raw = none → parse_retry_after r.headers = none) ∧
    ((build_exception r).kind ≠ .concurrencyLimit →
      (build_exception r).retry_after = none) ∧
    ((build_exception r).kind = .concurrencyLimit →
      (build_exception r).retry_after = parse_retry_after r.headers) ∧
    (build_exception
      ⟨429, [(("Retry-After"), ("5"))], .json (.obj [])⟩).retry_after
      = some 5 ∧
    (build_exception
      ⟨429, [(("Retry-After"), ("5"))], .json (.obj [])⟩).kind
      = .concurrencyLimit := by
  refine ⟨?_, ?_, ?_, ?_, ?_, by rfl, by rfl⟩
  · intro h; simp [parse_retry_after, h]
  · intro raw q h hq; simp [parse_retry_after, h, hq]
  · intro raw h hq; simp [parse_retry_after, h, hq]
  · intro h
    cases htry : tryParseError r with
    | none => simp [build_exception, htry]
    | some er =>
        simp only [build_exception, htry] at h ⊢
        simp only [ne_eq] at h
        simp [h]
  · intro h
    cases htry : tryParseError r with
    | none => simp [build_exception, htry] at h
    | some er =>
        simp only [build_exception, htry] at h ⊢
        simp [h]

/-- Witness for C6: no Retry-After header gives no hint. -/
theorem C6_retry_after_hint_witness :
    parse_retry_after ([] : List (String × String)) = none :=
  (C6_retry_after_hint ⟨429, [], .raw ("x")⟩).1 (by rfl)

/-- Every page the sync iterator yields has items or reports more
available: the empty-and-final case is swallowed at every position. -/
theorem syncPagesRun_yielded_sound {α : Type} (fetch : Nat → Nat → Page α)
    (limit : Nat) :
    ∀ (fuel offset : Nat),
      ∀ p ∈ (syncPagesRun fetch limit offset fuel).yielded,
        p.items ≠ [] ∨ p.has_more = true := by
  intro fuel
  induction fuel with
  | zero => intro offset p hp; simp [syncPagesRun] at hp
  | succ n ih =>
      intro offset p hp
      cases hm : (fetch limit offset).has_more with
      | true =>
          simp only [syncPagesRun, hm, if_pos] at hp
          simp only [List.mem_cons] at hp
          rcases hp with rfl | hp
          · exact Or.inr hm
          · exact ih (offset + limit) p hp
      | false =>
          cases he : (fetch limit offset).items.isEmpty with
          | true => simp [syncPagesRun, hm, he] at hp
          | false =>
              simp only [syncPagesRun, hm, he] at hp
              simp only [Bool.false_eq_true, if_false,
                List.mem_singleton] at hp
              subst hp
              exact Or.inl (by simpa [List.isEmpty_iff] using he)

/-- The async-iterator twin of `syncPagesRun_yielded_sound`. -/
theorem asyncPagesRun_yielded_sound {α : Type} (fetch : Nat → Nat → Page α)
    (limit : Nat) :
    ∀ (fuel offset : Nat),
      ∀ p ∈ (asyncPagesRun fetch limit offset fuel).yielded,
        p.items ≠ [] ∨ p.has_more = true := by
  intro fuel
  induction fuel with
  | zero => intro offset p hp; simp [asyncPagesRun] at hp
  | succ n ih =>
      intro offset p hp
      cases hm : (fetch limit offset).has_more with
      | true =>
          simp only [asyncPagesRun, hm, if_pos] at hp
          simp only [List.mem_cons] at hp
          rcases hp with rfl | hp
          · exact Or.inr hm
          · exact ih (offset + limit) p hp
      | false =>
          cases he : (fetch limit offset).items.isEmpty with
          | true => simp [asyncPagesRun, hm, he] at hp
          | false =>
              simp only [asyncPagesRun, hm, he] at hp
              simp only [Bool.false_eq_true, if_false,
                List.mem_singleton] at hp
              subst hp
              exact Or.inl (by simpa [List.isEmpty_iff] using he)

/-- C8: with the fetch sequence `[(items=[1,2], more), (items=[3], done)]`
the iterator flattens to `[1,2,3]` and requests exactly offsets
`[0, limit]`; a first page that is empty and final yields zero pages. -/
theorem C8_pagination_scenario (limit fuel : Nat)
    (fetch : Nat → Nat → Page Nat)
    (h0 : fetch limit 0 = ⟨[1, 2], true⟩)
    (h1 : fetch limit limit = ⟨[3], false⟩)
    (hfuel : 2 ≤ fuel) :
    iter_items_sync fetch limit fuel = [1, 2, 3] ∧
    (syncPagesRun fetch limit 0 fuel).fetched = [0, limit] ∧
    (∀ (g : Nat → Nat → Page Nat) (fl : Nat), g limit 0 = ⟨[], false⟩ →
      (syncPagesRun g limit 0 (fl + 1)).yielded = []) := by
  obtain ⟨k, rfl⟩ : ∃ k, fuel = k + 2 := ⟨fuel - 2, by omega⟩
  refine ⟨?_, ?_, ?_⟩
  · show iter_items_sync fetch limit (k + 1 + 1) = [1, 2, 3]
    simp [iter_items_sync, syncPagesRun, h0, h1]
  · show (syncPagesRun fetch limit 0 (k + 1 + 1)).fetched = [0, limit]
    simp [syncPagesRun, h0, h1]
  · intro g fl hg
    simp [syncPagesRun, hg]

/-- Witness for C8 at `limit = 10`, `fuel = 2`. -/
theorem C8_pagination_scenario_witness :
    iter_items_sync
      (fun _ o => if o = 0 then (⟨[1, 2], true⟩ : Page Nat) else ⟨[3], false⟩)
      10 2 = [1, 2, 3] :=
  (C8_pagination_scenario 10 2
    (fun _ o => if o = 0 then ⟨[1, 2], true⟩ else ⟨[3], false⟩)
    (by norm_num) (by norm_num) (by norm_num)).1

/-- C10: at every position, a fetched page that is empty and reports no
more available terminates the iteration without being yielded, so no
yielded page (sync or async) is both empty and final, and once a page
reports no more available the fetch function is not invoked again. -/
theorem C10_no_empty_final_page {α : Type} (fetch : Nat → Nat → Page α)
    (limit offset fuel : Nat) :
    (∀ p ∈ (syncPagesRun fetch limit offset fuel).yielded,
      p.items ≠ [] ∨ p.has_more = true) ∧
    (∀ p ∈ (asyncPagesRun fetch limit offset fuel).yielded,
      p.items ≠ [] ∨ p.has_more = true) ∧
    ((fetch limit offset).has_more = false →
      (fetch limit offset).items = [] →
      (syncPagesRun fetch limit offset (fuel + 1)).yielded = [] ∧
      (asyncPagesRun fetch limit offset (fuel + 1)).yielded = []) ∧
    ((fetch limit offset).has_more = false →
      (syncPagesRun fetch limit offset (fuel + 1)).fetched = [offset] ∧
      (asyncPagesRun fetch limit offset (fuel + 1)).fetched = [offset]) := by
  refine ⟨syncPagesRun_yielded_sound fetch limit fuel offset,
    asyncPagesRun_yielded_sound fetch limit fuel offset, ?_, ?_⟩
  · intro hm he
    constructor
    · simp [syncPagesRun, hm, he, List.isEmpty_iff]
    · simp [asyncPagesRun, hm, he, List.isEmpty_iff]
  · intro hm
    cases he : (fetch limit offset).items.isEmpty with
    | true =>
        constructor
        · simp [syncPagesRun, hm, he]
        · simp [asyncPagesRun, hm, he]
    | false =>
        constructor
        · simp [syncPagesRun, hm, he]
        · simp [asyncPagesRun, hm, he]

/-- Witness for C10: a fetch that is empty and final at offset 0. -/
theorem C10_no_empty_final_page_witness :
    (syncPagesRun (fun _ _ => (⟨[], false⟩ : Page Nat)) 5 0 4).yielded
      = [] ∧
    (asyncPagesRun (fun _ _ => (⟨[], false⟩ : Page Nat)) 5 0 4).yielded
      = [] :=
  (C10_no_empty_final_page (fun _ _ => (⟨[], false⟩ : Page Nat)) 5 0 3).2.2.1
    rfl rfl

/-- C9: a first attempt with status below 400 succeeds immediately: a 204
or empty body produces the empty result object (a real object, not the
JSON null), and a JSON body is returned parsed. -/
theorem C9_success_path (max_retries : Nat) (bf : ℚ)
    (responses : Nat → Response)
    (hs : (responses 0).status < 400) :
    ((responses 0).status = 204 ∨ (responses 0).body.isEmptyBody = true →
      _request_sync max_retries bf responses = ⟨.ok (Json.obj []), 1, []⟩ ∧
      Json.obj [] ≠ Json.null) ∧
    (∀ v, (responses 0).body = .json v → (responses 0).status ≠ 204 →
      _request_sync max_retries bf responses = ⟨.ok v, 1, []⟩) := by
  constructor
  · intro h204
    refine ⟨?_, by intro h; exact Json.noConfusion h⟩
    show requestLoop max_retries bf responses (max_retries + 1) 0 none = _
    simp only [requestLoop, hs, if_pos]
    rw [if_pos h204]
  · intro v hv h204
    show requestLoop max_retries bf responses (max_retries + 1) 0 none = _
    simp only [requestLoop, hs, if_pos]
    rw [if_neg (by simp [hv, RespBody.isEmptyBody, h204])]
    simp [hv, RespBody.asJson]

/-- Witness for C9: a 204 response with no body. -/
theorem C9_success_path_witness :
    _request_sync 3 1 (fun _ => ⟨204, [], .empty⟩) =
      ⟨.ok (Json.obj []), 1, []⟩ :=
  ((C9_success_path 3 1 (fun _ => ⟨204, [], .empty⟩)
    (by norm_num)).1 (Or.inl rfl)).1

/-- The physical call count of a pipeline run never exceeds the loop
fuel; at the top entry this is `max_retries + 1` attempts. -/
theorem requestLoop_calls_le (mr : Nat) (bf : ℚ) (rs : Nat → Response) :
    ∀ (fuel attempt : Nat) (le : Option NSError),
      (requestLoop mr bf rs fuel attempt le).calls ≤ fuel := by
  intro fuel
  induction fuel with
  | zero => intro attempt le; simp [requestLoop]
  | succ n ih =>
      intro attempt le
      by_cases h1 : (rs attempt).status < 400
      · by_cases h2 : (rs attempt).status = 204 ∨
            (rs attempt).body.isEmptyBody = true
        · simp [requestLoop, h1, h2]
        · cases hb : (rs attempt).body.asJson <;>
            simp [requestLoop, h1, h2, hb]
      · by_cases h3 : (rs attempt).status = 429 ∧ attempt < mr
        · have hrec := ih (attempt + 1) (some (build_exception (rs attempt)))
          simp only [requestLoop]
          rw [if_neg h1, if_pos h3]
          dsimp only
          omega
        · by_cases h4 : 500 ≤ (rs attempt).status ∧ attempt < mr
          · have hrec := ih (attempt + 1)
              (some (build_exception (rs attempt)))
            simp only [requestLoop]
            rw [if_neg h1, if_neg h3, if_pos h4]
            dsimp only
            omega
          · simp only [requestLoop]
            rw [if_neg h1, if_neg h3, if_neg h4]
            simp

/-- C1: the pipeline performs at most `max_retries + 1` physical
attempts (sync and async alike); an attempt whose status is ≥ 400 but
neither 429 nor ≥ 500 with attempts remaining raises its classified
error immediately after that single call and sleeps never; a retryable
attempt with attempts remaining consumes one call, sleeps the backoff
(hint-driven exactly for 429), and continues; and the all-500 GET under
`max_retries = 1`, factor 0, makes exactly 2 calls and raises the
Server-kind error. -/
theorem C1_retry_pipeline :
    (∀ (mr : Nat) (bf : ℚ) (rs : Nat → Response),
      (_request_sync mr bf rs).calls ≤ mr + 1) ∧
    (∀ (mr : Nat) (bf : ℚ) (rs : Nat → Response),
      _request_async mr bf rs = _request_sync mr bf rs) ∧
    (∀ (mr : Nat) (bf : ℚ) (rs : Nat → Response) (fuel attempt : Nat)
        (le : Option NSError),
      400 ≤ (rs attempt).status →
      ¬((rs attempt).status = 429 ∧ attempt < mr) →
      ¬(500 ≤ (rs attempt).status ∧ attempt < mr) →
      requestLoop mr bf rs (fuel + 1) attempt le =
        ⟨.raised (build_exception (rs attempt)), 1, []⟩) ∧
    (∀ (mr : Nat) (bf : ℚ) (rs : Nat → Response) (fuel attempt : Nat)
        (le : Option NSError),
      400 ≤ (rs attempt).status →
      ((rs attempt).status = 429 ∨ 500 ≤ (rs attempt).status) →
      attempt < mr →
      requestLoop mr bf rs (fuel + 1) attempt le =
        ⟨(requestLoop mr bf rs fuel (attempt + 1)
            (some (build_exception (rs attempt)))).result,
          (requestLoop mr bf rs fuel (attempt + 1)
            (some (build_exception (rs attempt)))).calls + 1,
          calculate_backoff attempt
            (if (rs attempt).status = 429
             then parse_retry_after (rs attempt).headers else none) bf ::
            (requestLoop mr bf rs fuel (attempt + 1)
              (some (build_exception (rs attempt)))).waits⟩) ∧
    (_request_sync 1 0 (fun _ => ⟨500, [], .json (.obj [])⟩) =
      ⟨.raised ⟨.server, ("HTTP 500"), some 500, some (""), [], none⟩,
        2, [0]⟩) := by
  refine ⟨?_, fun _ _ _ => rfl, ?_, ?_, ?_⟩
  · intro mr bf rs
    exact requestLoop_calls_le mr bf rs (mr + 1) 0 none
  · intro mr bf rs fuel attempt le hs h429 h500
    simp only [requestLoop]
    rw [if_neg (by omega), if_neg h429, if_neg h500]
  · intro mr bf rs fuel attempt le hs hretry hrem
    rcases hretry with h429 | h500
    · simp only [requestLoop]
      rw [if_neg (by omega), if_pos ⟨h429, hrem⟩, if_pos h429]
    · by_cases h429 : (rs attempt).status = 429
      · simp only [requestLoop]
        rw [if_neg (by omega), if_pos ⟨h429, hrem⟩, if_pos h429]
      · simp only [requestLoop]
        rw [if_neg (by omega), if_neg (by tauto), if_pos ⟨h500, hrem⟩,
          if_neg h429]
  · have hrun : _request_sync 1 0 (fun _ => ⟨500, [], .json (.obj [])⟩) =
        ⟨.raised ⟨.server, ("HTTP 500"), some 500, some (""), [], none⟩,
          2, [calculate_backoff 0 none 0]⟩ := rfl
    rw [hrun]
    simp [calculate_backoff]

/-- Witness for C1: a 404 on the first attempt raises at once. -/
theorem C1_retry_pipeline_witness :
    requestLoop 3 1 (fun _ => ⟨404, [], .raw ("x")⟩) 1 0 none =
      ⟨.raised (build_exception ⟨404, [], .raw ("x")⟩), 1, []⟩ :=
  C1_retry_pipeline.2.2.1 3 1 (fun _ => ⟨404, [], .raw ("x")⟩) 0 0 none
    (by norm_num) (by norm_num) (by norm_num)

/-! ### Percent-encoding is uniquely decodable on ASCII input

These lemmas support the amended determinism/distinctness claim for TBA
signing: `encodeByte` chunks decode unambiguously, hence the encoded
parameter and URL strings determine their preimages. -/

set_option maxRecDepth 8192

/-- Unreserved bytes are ASCII. -/
theorem unreserved_lt_128 :
    ∀ b : Nat, b < 256 → isUnreservedByte b = true → b < 128 := by decide

/-- `Char.ofNat` round-trips on ASCII codes. -/
theorem charOfNat_toNat_ascii :
    ∀ b : Nat, b < 128 → (Char.ofNat b).toNat = b := by decide

/-- Decoding the two hex digits of an escape recovers the byte. -/
theorem hexPair_roundtrip : ∀ b : Nat, b < 256 →
    16 * hexVal (hexDigitChar (b / 16)) + hexVal (hexDigitChar (b % 16))
      = b := by decide

/-- An unreserved byte's character is not the escape marker. -/
theorem unreserved_char_ne_pct : ∀ b : Nat, b < 128 →
    isUnreservedByte b = true → ¬(Char.ofNat b = '%') := by decide

/-- `encodeByte` output is never empty. -/
theorem encodeByte_ne_nil (b : Nat) : encodeByte b ≠ [] := by
  unfold encodeByte; split <;> simp

/-- Characters emitted for an ASCII byte are ASCII and are neither the
parameter separator `&` nor the key-value separator `=`. -/
theorem encodeByte_chars_ascii : ∀ b : Nat, b < 128 →
    (encodeByte b).all
      (fun c => decide (c.toNat < 128) && !(c == '&') && !(c == '='))
      = true := by decide

/-- `decodeOneByte` inverts `encodeByte` at the head of any stream. -/
theorem decodeOneByte_encodeByte (b : Nat) (hb : b < 256)
    (cs : List Char) :
    decodeOneByte (encodeByte b ++ cs) = some (b, cs) := by
  by_cases hu : isUnreservedByte b = true
  · have hb128 : b < 128 := unreserved_lt_128 b hb hu
    have ht : (Char.ofNat b).toNat = b := charOfNat_toNat_ascii b hb128
    have hne : ¬(Char.ofNat b = '%') := unreserved_char_ne_pct b hb128 hu
    simp [encodeByte, hu, decodeOneByte, hne, ht]
  · simp [encodeByte, hu, decodeOneByte, hexPair_roundtrip b hb]

/-- Byte-list percent-encoding is injective below 256. -/
theorem encodeBytes_inj : ∀ (bs1 bs2 : List Nat),
    (∀ b ∈ bs1, b < 256) → (∀ b ∈ bs2, b < 256) →
    (bs1.map encodeByte).flatten = (bs2.map encodeByte).flatten →
    bs1 = bs2 := by
  intro bs1
  induction bs1 with
  | nil =>
      intro bs2 _ _ h
      cases bs2 with
      | nil => rfl
      | cons b r =>
          exfalso
          simp only [List.map_nil, List.flatten_nil, List.map_cons,
            List.flatten_cons] at h
          exact encodeByte_ne_nil b (List.append_eq_nil.mp h.symm).1
  | cons a r1 ih =>
      intro bs2 h1 h2 h
      cases bs2 with
      | nil =>
          exfalso
          simp only [List.map_nil, List.flatten_nil, List.map_cons,
            List.flatten_cons] at h
          exact encodeByte_ne_nil a (List.append_eq_nil.mp h).1
      | cons b r2 =>
          simp only [List.map_cons, List.flatten_cons] at h
          have hd := congrArg decodeOneByte h
          rw [decodeOneByte_encodeByte a (h1 a (by simp)) _,
            decodeOneByte_encodeByte b (h2 b (by simp)) _] at hd
          simp only [Option.some.injEq, Prod.mk.injEq] at hd
          obtain ⟨rfl, hrest⟩ := hd
          rw [ih r2 (fun x hx => h1 x (by simp [hx]))
            (fun x hx => h2 x (by simp [hx])) hrest]

/-- `Char.toNat` is injective. -/
theorem char_toNat_injective : Function.Injective Char.toNat := by
  intro a b h
  have := congrArg Char.ofNat h
  simpa [Char.ofNat_toNat] using this

/-- On ASCII character lists, UTF-8 encoding is the code-point list. -/
theorem strBytes_ascii_list : ∀ (l : List Char),
    (∀ c ∈ l, c.toNat < 128) →
    (l.map utf8Bytes).flatten = l.map Char.toNat := by
  intro l hl
  induction l with
  | nil => rfl
  | cons c cs ih =>
      have hc : c.toNat < 128 := hl c (by simp)
      simp [utf8Bytes, hc, ih (fun x hx => hl x (by simp [hx]))]

/-- ASCII-ness as the universally quantified statement. -/
theorem isAsciiStr_forall {s : String} (h : isAsciiStr s = true) :
    ∀ c ∈ s.data, c.toNat < 128 := by
  simpa [isAsciiStr, List.all_eq_true] using h

/-- `percentEncode` is injective on ASCII strings. -/
theorem percentEncode_inj_ascii (s1 s2 : String)
    (h1 : isAsciiStr s1 = true) (h2 : isAsciiStr s2 = true)
    (h : percentEncode s1 = percentEncode s2) : s1 = s2 := by
  have ha1 := isAsciiStr_forall h1
  have ha2 := isAsciiStr_forall h2
  have hd : ((strBytes s1).map encodeByte).flatten
      = ((strBytes s2).map encodeByte).flatten := congrArg String.data h
  have he := encodeBytes_inj (strBytes s1) (strBytes s2)
    (by
      intro b hbmem
      rw [show strBytes s1 = s1.data.map Char.toNat from
        strBytes_ascii_list s1.data ha1] at hbmem
      obtain ⟨c, hc, rfl⟩ := List.mem_map.mp hbmem
      exact lt_trans (ha1 c hc) (by norm_num))
    (by
      intro b hbmem
      rw [show strBytes s2 = s2.data.map Char.toNat from
        strBytes_ascii_list s2.data ha2] at hbmem
      obtain ⟨c, hc, rfl⟩ := List.mem_map.mp hbmem
      exact lt_trans (ha2 c hc) (by norm_num))
    hd
  rw [show strBytes s1 = s1.data.map Char.toNat from
      strBytes_ascii_list s1.data ha1,
    show strBytes s2 = s2.data.map Char.toNat from
      strBytes_ascii_list s2.data ha2] at he
  exact String.ext (List.map_injective_iff.mpr char_toNat_injective he)

/-- Splitting on a separator absent from both prefixes is unambiguous. -/
theorem append_sep_inj (sep : Char) :
    ∀ (xs ys zs ws : List Char), sep ∉ xs → sep ∉ ys →
      xs ++ sep :: zs = ys ++ sep :: ws → xs = ys ∧ zs = ws := by
  intro xs
  induction xs with
  | nil =>
      intro ys zs ws _ hy h
      cases ys with
      | nil => simpa using h
      | cons y ys' =>
          exfalso
          simp only [List.nil_append, List.cons_append, List.cons.injEq]
            at h
          obtain ⟨rfl, _⟩ := h
          exact hy (List.mem_cons_self _ _)
  | cons x xs' ih =>
      intro ys zs ws hx hy h
      cases ys with
      | nil =>
          exfalso
          simp only [List.nil_append, List.cons_append, List.cons.injEq]
            at h
          obtain ⟨rfl, _⟩ := h
          exact hx (List.mem_cons_self _ _)
      | cons y ys' =>
          simp only [List.cons_append, List.cons.injEq] at h
          obtain ⟨rfl, h2⟩ := h
          have hrec := ih ys' zs ws
            (fun hm => hx (List.mem_cons_of_mem _ hm))
            (fun hm => hy (List.mem_cons_of_mem _ hm)) h2
          exact ⟨by rw [hrec.1], hrec.2⟩

/-- `joinParts "&"` agrees with the character-level join. -/
theorem joinParts_amp_data : ∀ (parts : List String),
    (joinParts ("&") parts).data
      = joinChar '&' (parts.map String.data) := by
  intro parts
  induction parts with
  | nil => rfl
  | cons p rest ih =>
      cases rest with
      | nil => rfl
      | cons q rest' =>
          have h1 : (joinParts ("&") (p :: q :: rest')).data
              = (p.data ++ ('&' :: [])) ++
                (joinParts ("&") (q :: rest')).data := rfl
          rw [h1, ih]
          show _ = p.data ++ '&' :: joinChar '&' (q.data :: rest'.map String.data)
          simp [List.append_assoc]

/-- Joining nonempty, separator-free chunks is injective. -/
theorem joinChar_inj (sep : Char) :
    ∀ (ps qs : List (List Char)),
      (∀ p ∈ ps, p ≠ [] ∧ sep ∉ p) → (∀ q ∈ qs, q ≠ [] ∧ sep ∉ q) →
      joinChar sep ps = joinChar sep qs → ps = qs := by
  intro ps
  induction ps with
  | nil =>
      intro qs _ hq h
      cases qs with
      | nil => rfl
      | cons q qs' =>
          exfalso
          cases qs' with
          | nil =>
              have h' : ([] : List Char) = q := h
              exact (hq q (by simp)).1 h'.symm
          | cons q2 r =>
              have h' : ([] : List Char)
                  = q ++ sep :: joinChar sep (q2 :: r) := h
              simp at h'
  | cons p ps' ih =>
      intro qs hp hq h
      cases qs with
      | nil =>
          exfalso
          cases ps' with
          | nil =>
              have h' : p = ([] : List Char) := h
              exact (hp p (by simp)).1 h'
          | cons p2 r =>
              have h' : p ++ sep :: joinChar sep (p2 :: r)
                  = ([] : List Char) := h
              simp at h'
      | cons q qs' =>
          cases ps' with
          | nil =>
              cases qs' with
              | nil =>
                  have h' : p = q := h
                  rw [h']
              | cons q2 r =>
                  exfalso
                  have h' : p = q ++ sep :: joinChar sep (q2 :: r) := h
                  have hsep : sep ∈ q ++ sep :: joinChar sep (q2 :: r) := by
                    simp
                  exact (hp p (by simp)).2 (h' ▸ hsep)
          | cons p2 r1 =>
              cases qs' with
              | nil =>
                  exfalso
                  have h' : p ++ sep :: joinChar sep (p2 :: r1) = q := h
                  have hsep : sep ∈ p ++ sep :: joinChar sep (p2 :: r1) := by
                    simp
                  exact (hq q (by simp)).2 (h' ▸ hsep)
              | cons q2 r2 =>
                  have h' : p ++ sep :: joinChar sep (p2 :: r1)
                      = q ++ sep :: joinChar sep (q2 :: r2) := h
                  obtain ⟨h1, h2⟩ := append_sep_inj sep p q _ _
                    (hp p (by simp)).2 (hq q (by simp)).2 h'
                  rw [h1, ih (q2 :: r2)
                    (fun x hx => hp x (by simp [hx]))
                    (fun x hx => hq x (by simp [hx])) h2]

/-- String append acts as list append on the character data. -/
theorem string_data_append (a b : String) :
    (a ++ b).data = a.data ++ b.data := rfl

/-- The characters of percent-encoded ASCII text are ASCII and are
neither separator. -/
theorem percentEncode_chars (s : String) (h : isAsciiStr s = true) :
    ∀ c ∈ (percentEncode s).data, c.toNat < 128 ∧ c ≠ '&' ∧ c ≠ '=' := by
  intro c hc
  have hc' : c ∈ ((strBytes s).map encodeByte).flatten := hc
  obtain ⟨l, hl, hcl⟩ := List.mem_flatten.mp hc'
  obtain ⟨b, hb, rfl⟩ := List.mem_map.mp hl
  have hb128 : b < 128 := by
    rw [show strBytes s = s.data.map Char.toNat from
      strBytes_ascii_list s.data (isAsciiStr_forall h)] at hb
    obtain ⟨ch, hch, rfl⟩ := List.mem_map.mp hb
    exact isAsciiStr_forall h ch hch
  have hall := List.all_eq_true.mp (encodeByte_chars_ascii b hb128) c hcl
  simp only [Bool.and_eq_true, decide_eq_true_eq, Bool.not_eq_true',
    beq_eq_false_iff_ne, ne_eq] at hall
  exact ⟨hall.1.1, hall.1.2, hall.2⟩

/-- The data of one encoded `key=value` component. -/
theorem pairEnc_data (k v : String) :
    (percentEncode k ++ "=" ++ percentEncode v).data
      = (percentEncode k).data ++ '=' :: (percentEncode v).data := by
  show ((percentEncode k).data ++ ('=' :: [])) ++ (percentEncode v).data = _
  simp

/-- An encoded `key=value` component determines the ASCII key and value. -/
theorem pairEnc_inj (k1 v1 k2 v2 : String)
    (hk1 : isAsciiStr k1 = true) (hv1 : isAsciiStr v1 = true)
    (hk2 : isAsciiStr k2 = true) (hv2 : isAsciiStr v2 = true)
    (h : percentEncode k1 ++ "=" ++ percentEncode v1
      = percentEncode k2 ++ "=" ++ percentEncode v2) :
    k1 = k2 ∧ v1 = v2 := by
  have hd : (percentEncode k1).data ++ '=' :: (percentEncode v1).data
      = (percentEncode k2).data ++ '=' :: (percentEncode v2).data := by
    rw [← pairEnc_data, ← pairEnc_data, h]
  have hsplit := append_sep_inj '=' _ _ _ _
    (fun hm => ((percentEncode_chars k1 hk1) '=' hm).2.2 rfl)
    (fun hm => ((percentEncode_chars k2 hk2) '=' hm).2.2 rfl) hd
  exact ⟨percentEncode_inj_ascii k1 k2 hk1 hk2 (String.ext hsplit.1),
    percentEncode_inj_ascii v1 v2 hv1 hv2 (String.ext hsplit.2)⟩

/-- Encoded components of an ASCII parameter list are nonempty and
ampersand-free. -/
theorem pairEnc_chunk_ok (l : List (String × String))
    (hl : isAsciiPairs l = true) :
    ∀ x ∈ l.map
      (fun p => (percentEncode p.1 ++ "=" ++ percentEncode p.2).data),
      x ≠ [] ∧ '&' ∉ x := by
  intro x hx
  obtain ⟨p, hpmem, rfl⟩ := List.mem_map.mp hx
  have hasc : isAsciiStr p.1 = true ∧ isAsciiStr p.2 = true := by
    have := List.all_eq_true.mp hl p hpmem
    simpa [Bool.and_eq_true] using this
  constructor
  · rw [pairEnc_data]; simp
  · intro hmem
    rw [pairEnc_data] at hmem
    rcases List.mem_append.mp hmem with hk | htail
    · exact ((percentEncode_chars p.1 hasc.1) '&' hk).2.1 rfl
    · rcases List.mem_cons.mp htail with heq | hv
      · exact absurd heq (by decide)
      · exact ((percentEncode_chars p.2 hasc.2) '&' hv).2.1 rfl

/-- Encoded component lists determine ASCII parameter lists. -/
theorem mapPairEnc_inj : ∀ (ps qs : List (String × String)),
    isAsciiPairs ps = true → isAsciiPairs qs = true →
    ps.map (fun p => (percentEncode p.1 ++ "=" ++ percentEncode p.2).data)
      = qs.map
        (fun p => (percentEncode p.1 ++ "=" ++ percentEncode p.2).data) →
    ps = qs := by
  intro ps
  induction ps with
  | nil =>
      intro qs _ _ h
      cases qs with
      | nil => rfl
      | cons q qs' => simp at h
  | cons p ps' ih =>
      intro qs hp hq h
      cases qs with
      | nil => simp at h
      | cons q qs' =>
          simp only [List.map_cons, List.cons.injEq] at h
          obtain ⟨h1, h2⟩ := h
          have hpasc : (isAsciiStr p.1 = true ∧ isAsciiStr p.2 = true) ∧
              isAsciiPairs ps' = true := by
            simpa [isAsciiPairs, Bool.and_eq_true] using hp
          have hqasc : (isAsciiStr q.1 = true ∧ isAsciiStr q.2 = true) ∧
              isAsciiPairs qs' = true := by
            simpa [isAsciiPairs, Bool.and_eq_true] using hq
          have hpair := pairEnc_inj p.1 p.2 q.1 q.2 hpasc.1.1 hpasc.1.2
            hqasc.1.1 hqasc.1.2 (String.ext h1)
          have hpq : p = q := by
            obtain ⟨pk, pv⟩ := p
            obtain ⟨qk, qv⟩ := q
            simpa using hpair
          rw [hpq, ih qs' hpasc.2 hqasc.2 h2]

/-- Membership in a joined list comes from the separator or a chunk. -/
theorem mem_joinChar (sep : Char) : ∀ (l : List (List Char)) (c : Char),
    c ∈ joinChar sep l → c = sep ∨ ∃ x ∈ l, c ∈ x := by
  intro l
  induction l with
  | nil => intro c hc; exact absurd hc (by simp [joinChar])
  | cons p rest ih =>
      intro c hc
      cases rest with
      | nil =>
          have hc' : c ∈ p := hc
          exact Or.inr ⟨p, by simp, hc'⟩
      | cons q r =>
          have hc' : c ∈ p ++ sep :: joinChar sep (q :: r) := hc
          rcases List.mem_append.mp hc' with hcp | hctail
          · exact Or.inr ⟨p, by simp, hcp⟩
          · rcases List.mem_cons.mp hctail with rfl | hcj
            · exact Or.inl rfl
            · rcases ih c hcj with hsep | ⟨x, hx, hcx⟩
              · exact Or.inl hsep
              · exact Or.inr ⟨x, by simp [hx], hcx⟩

/-- The character data of the normalized parameter string. -/
theorem normalizedParams_data (ps : List (String × String)) :
    (normalizedParams ps).data = joinChar '&' (ps.map
      (fun p => (percentEncode p.1 ++ "=" ++ percentEncode p.2).data)) := by
  rw [normalizedParams, joinParts_amp_data, List.map_map]
  rfl

/-- `urlencode` of sorted parameters is injective on ASCII parameter
lists. -/
theorem normalizedParams_inj (ps qs : List (String × String))
    (hp : isAsciiPairs ps = true) (hq : isAsciiPairs qs = true)
    (h : normalizedParams ps = normalizedParams qs) : ps = qs := by
  have hd := congrArg String.data h
  rw [normalizedParams_data, normalizedParams_data] at hd
  exact mapPairEnc_inj ps qs hp hq
    (joinChar_inj '&' _ _ (pairEnc_chunk_ok ps hp)
      (pairEnc_chunk_ok qs hq) hd)

/-- The normalized parameter string of an ASCII parameter list is
ASCII. -/
theorem normalizedParams_ascii (ps : List (String × String))
    (hp : isAsciiPairs ps = true) :
    isAsciiStr (normalizedParams ps) = true := by
  rw [isAsciiStr, List.all_eq_true]
  intro c hc
  rw [normalizedParams_data] at hc
  rcases mem_joinChar '&' _ c hc with rfl | ⟨x, hx, hcx⟩
  · simp
  · obtain ⟨p, hpmem, rfl⟩ := List.mem_map.mp hx
    have hasc : isAsciiStr p.1 = true ∧ isAsciiStr p.2 = true := by
      have := List.all_eq_true.mp hp p hpmem
      simpa [Bool.and_eq_true] using this
    rw [pairEnc_data] at hcx
    rcases List.mem_append.mp hcx with hk | htail
    · simpa using ((percentEncode_chars p.1 hasc.1) c hk).1
    · rcases List.mem_cons.mp htail with rfl | hv
      · simp
      · simpa using ((percentEncode_chars p.2 hasc.2) c hv).1

/-- C2 counterexample: two requests with the same method and path whose
query strings differ — `a=1&b=2` versus `b=2&a=1` — produce identical
`oauth_signature` values, because the query items are merged into one
parameter dict and sorted before signing. This refutes the claim that
requests differing in query string always produce different signatures. -/
theorem C2_tba_signing_counterexample :
    (⟨("https"), ("acme.example.com"), ("/services/rest"),
        [(("a"), ("1")), (("b"), ("2"))]⟩ : Url).query ≠
      (⟨("https"), ("acme.example.com"), ("/services/rest"),
        [(("b"), ("2")), (("a"), ("1"))]⟩ : Url).query ∧
    _compute_signature ⟨("ck"), ("cs"), ("tk"), ("tsec")⟩ ("nonce")
        ("1700000000")
        ⟨("GET"), ⟨("https"), ("acme.example.com"), ("/services/rest"),
          [(("a"), ("1")), (("b"), ("2"))]⟩, ("")⟩
      = _compute_signature ⟨("ck"), ("cs"), ("tk"), ("tsec")⟩ ("nonce")
        ("1700000000")
        ⟨("GET"), ⟨("https"), ("acme.example.com"), ("/services/rest"),
          [(("b"), ("2")), (("a"), ("1"))]⟩, ("")⟩ := by
  constructor
  · decide
  · have hbs : signature_base_string ⟨("ck"), ("cs"), ("tk"), ("tsec")⟩
        ("nonce") ("1700000000")
        ⟨("GET"), ⟨("https"), ("acme.example.com"), ("/services/rest"),
          [(("a"), ("1")), (("b"), ("2"))]⟩, ("")⟩
        = signature_base_string ⟨("ck"), ("cs"), ("tk"), ("tsec")⟩
        ("nonce") ("1700000000")
        ⟨("GET"), ⟨("https"), ("acme.example.com"), ("/services/rest"),
          [(("b"), ("2")), (("a"), ("1"))]⟩, ("")⟩ := by decide
    unfold _compute_signature
    rw [hbs]

/-- C2 (amended): with nonce and timestamp fixed, (1) two requests with
identical method and URL produce byte-identical Authorization headers
and signatures, whatever their bodies — the body is never an input;
(2) two ASCII requests identical except in URL path produce different
signature base strings (hence different signatures barring HMAC
collisions); (3) with method and base URL fixed, the base strings agree
exactly when the merged, sorted oauth+query parameter lists agree — so a
query-string change alters the signature precisely when it changes that
merged parameter map. -/
theorem C2_tba_signing_amended :
    (∀ (cfg : TBAConfig) (realm nonce ts : String) (r1 r2 : Request),
      r1.method = r2.method → r1.url = r2.url →
      auth_flow_header cfg realm nonce ts r1
          = auth_flow_header cfg realm nonce ts r2 ∧
        _compute_signature cfg nonce ts r1
          = _compute_signature cfg nonce ts r2) ∧
    (∀ (cfg : TBAConfig) (nonce ts : String) (r1 r2 : Request),
      r1.method = r2.method →
      r1.url.scheme = r2.url.scheme → r1.url.host = r2.url.host →
      r1.url.query = r2.url.query → r1.url.path ≠ r2.url.path →
      isAsciiStr (baseUrlOf r1.url) = true →
      isAsciiStr (baseUrlOf r2.url) = true →
      signature_base_string cfg nonce ts r1
        ≠ signature_base_string cfg nonce ts r2) ∧
    (∀ (cfg : TBAConfig) (nonce ts : String) (r1 r2 : Request),
      r1.method = r2.method → baseUrlOf r1.url = baseUrlOf r2.url →
      isAsciiPairs (sortPairs
        (mergeParams (oauthParams cfg nonce ts) r1.url.query)) = true →
      isAsciiPairs (sortPairs
        (mergeParams (oauthParams cfg nonce ts) r2.url.query)) = true →
      (sortPairs (mergeParams (oauthParams cfg nonce ts) r1.url.query)
          = sortPairs (mergeParams (oauthParams cfg nonce ts) r2.url.query)
        ↔ signature_base_string cfg nonce ts r1
          = signature_base_string cfg nonce ts r2)) := by
  refine ⟨?_, ?_, ?_⟩
  · intro cfg realm nonce ts r1 r2 hm hu
    obtain ⟨m1, u1, b1⟩ := r1
    obtain ⟨m2, u2, b2⟩ := r2
    simp only at hm hu
    cases hm; cases hu
    exact ⟨rfl, rfl⟩
  · intro cfg nonce ts r1 r2 hm hscheme hhost hquery hpath hA1 hA2
    intro hbs
    apply hpath
    have hd := congrArg String.data hbs
    simp only [signature_base_string, hm, hquery, string_data_append,
      List.append_assoc, List.singleton_append] at hd
    have hcancel := List.append_cancel_left hd
    have hrest : (percentEncode (baseUrlOf r1.url)).data ++ '&' ::
        (percentEncode (normalizedParams (sortPairs (mergeParams
          (oauthParams cfg nonce ts) r2.url.query)))).data
        = (percentEncode (baseUrlOf r2.url)).data ++ '&' ::
        (percentEncode (normalizedParams (sortPairs (mergeParams
          (oauthParams cfg nonce ts) r2.url.query)))).data := by
      simpa using hcancel
    obtain ⟨hU, _⟩ := append_sep_inj '&' _ _ _ _
      (fun hmem => ((percentEncode_chars _ hA1) '&' hmem).2.1 rfl)
      (fun hmem => ((percentEncode_chars _ hA2) '&' hmem).2.1 rfl) hrest
    have hUrl : baseUrlOf r1.url = baseUrlOf r2.url :=
      percentEncode_inj_ascii _ _ hA1 hA2 (String.ext hU)
    have hud := congrArg String.data hUrl
    simp only [baseUrlOf, hscheme, hhost, string_data_append,
      List.append_assoc] at hud
    have h1 := List.append_cancel_left hud
    have h2 := List.append_cancel_left h1
    have h3 := List.append_cancel_left h2
    exact String.ext h3
  · intro cfg nonce ts r1 r2 hm hbase hA1 hA2
    constructor
    · intro hlist
      simp only [signature_base_string, hm, hbase, hlist]
    · intro hbs
      have hd := congrArg String.data hbs
      simp only [signature_base_string, hm, hbase, string_data_append,
        List.append_assoc, List.singleton_append] at hd
      have h1 := List.append_cancel_left hd
      have h2 : (percentEncode (baseUrlOf r2.url)).data ++
          ('&' :: (percentEncode (normalizedParams (sortPairs (mergeParams
            (oauthParams cfg nonce ts) r1.url.query)))).data)
          = (percentEncode (baseUrlOf r2.url)).data ++
          ('&' :: (percentEncode (normalizedParams (sortPairs (mergeParams
            (oauthParams cfg nonce ts) r2.url.query)))).data) := by
        simpa using h1
      have h3 := List.append_cancel_left h2
      have h4 : (percentEncode (normalizedParams (sortPairs (mergeParams
          (oauthParams cfg nonce ts) r1.url.query)))).data
          = (percentEncode (normalizedParams (sortPairs (mergeParams
            (oauthParams cfg nonce ts) r2.url.query)))).data := by
        simpa using h3
      have hP : normalizedParams (sortPairs (mergeParams
          (oauthParams cfg nonce ts) r1.url.query))
          = normalizedParams (sortPairs (mergeParams
            (oauthParams cfg nonce ts) r2.url.query)) :=
        percentEncode_inj_ascii _ _
          (normalizedParams_ascii _ hA1) (normalizedParams_ascii _ hA2)
          (String.ext h4)
      exact normalizedParams_inj _ _ hA1 hA2 hP

/-- Witness for the amended C2: requests differing only in path have
different signature base strings. -/
theorem C2_tba_signing_amended_witness :
    signature_base_string ⟨("ck"), ("cs"), ("tk"), ("tsec")⟩ ("n") ("1")
        ⟨("GET"), ⟨("https"), ("h.example.com"), ("/a"), []⟩, ("")⟩
      ≠ signature_base_string ⟨("ck"), ("cs"), ("tk"), ("tsec")⟩ ("n") ("1")
        ⟨("GET"), ⟨("https"), ("h.example.com"), ("/b"), []⟩, ("")⟩ :=
  C2_tba_signing_amended.2.1 ⟨("ck"), ("cs"), ("tk"), ("tsec")⟩ ("n") ("1")
    ⟨("GET"), ⟨("https"), ("h.example.com"), ("/a"), []⟩, ("")⟩
    ⟨("GET"), ⟨("https"), ("h.example.com"), ("/b"), []⟩, ("")⟩
    rfl rfl rfl rfl (by decide) (by decide) (by decide)

end NetsuiteShim
